import Mathlib

/-!
Shallow embedding of the thyra annotation core (coordinate conversion,
vector-mask shapes, document operations, COCO export) over exact rational
arithmetic.  Every definition is translated from the Python source under
`src/`; float arithmetic is modelled by `ℚ`, Python ints by `ℤ`/`ℕ`.
-/

namespace Thyra

/-! ### Coordinate conversion (`src/app/computational_geometry/coordinates_convertion.py`) -/

/-- Rectangle in widget coordinates, mirroring Qt's `QRectF(x, y, w, h)`. -/
structure QRectF where
  x : ℚ
  y : ℚ
  w : ℚ
  h : ℚ
deriving DecidableEq

/-- Embeds `compute_video_rect`: the centered, aspect-preserving letterbox
rectangle of the image inside the widget; full widget when the image size is
degenerate. -/
def compute_video_rect (img_w img_h widget_w widget_h : ℚ) : QRectF :=
  if img_w ≤ 0 ∨ img_h ≤ 0 then
    ⟨0, 0, widget_w, widget_h⟩
  else
    let widget_ratio := widget_w / widget_h
    let img_ratio := img_w / img_h
    if img_ratio < widget_ratio then
      let height := widget_h
      let width := img_ratio * height
      ⟨(widget_w - width) / 2, 0, width, height⟩
    else
      let width := widget_w
      let height := width / img_ratio
      ⟨0, (widget_h - height) / 2, width, height⟩

/-- Embeds `widget_to_image_coords`: widget point to absolute image pixels,
with the relative position clamped into `[0,1]` per axis.  The optional
`rect` argument defaults to `compute_video_rect`, as in the source. -/
def widget_to_image_coords (pos : ℚ × ℚ) (img_w img_h widget_w widget_h : ℚ)
    (rectOpt : Option QRectF) : ℚ × ℚ :=
  let rect := rectOpt.getD (compute_video_rect img_w img_h widget_w widget_h)
  if img_w ≤ 0 ∨ img_h ≤ 0 then (0, 0)
  else
    let x_rel := (pos.1 - rect.x) / rect.w
    let y_rel := (pos.2 - rect.y) / rect.h
    let x_rel := min (max 0 x_rel) 1
    let y_rel := min (max 0 y_rel) 1
    (x_rel * img_w, y_rel * img_h)

/-- Embeds `image_to_widget_coords`: absolute image pixels to widget
coordinates through the display rectangle. -/
def image_to_widget_coords (x_img y_img img_w img_h widget_w widget_h : ℚ)
    (rectOpt : Option QRectF) : ℚ × ℚ :=
  let rect := rectOpt.getD (compute_video_rect img_w img_h widget_w widget_h)
  if img_w ≤ 0 ∨ img_h ≤ 0 then (0, 0)
  else
    let x_rel := x_img / img_w
    let y_rel := y_img / img_h
    (rect.x + x_rel * rect.w, rect.y + y_rel * rect.h)

/-! ### COCO export records (`export_to_coco` result dictionaries) -/

/-- One entry of the `images` list of the COCO structure. -/
structure CocoImage where
  id : ℕ
  file_name : String
  width : ℚ
  height : ℚ
deriving DecidableEq

/-- One entry of the `categories` list of the COCO structure. -/
structure CocoCategory where
  id : ℕ
  name : String
  supercategory : String
deriving DecidableEq

/-- The per-mask annotation dictionary returned by the shapes'
`export_to_coco` methods. -/
structure CocoAnnotation where
  id : ℕ
  image_id : ℕ
  category_id : ℕ
  bbox : List ℚ
  area : ℚ
  iscrowd : ℕ
  segmentation : List (List ℚ)
deriving DecidableEq

/-- The full COCO structure built by `ThyraDocument.export_to_coco`. -/
structure CocoExport where
  images : List CocoImage
  annotations : List CocoAnnotation
  categories : List CocoCategory
deriving DecidableEq

/-! ### BoundingBox (`src/app/ui/bounding_box.py`) -/

/-- Embeds the `BoundingBox` dataclass: normalized top-left corner `(x, y)`,
normalized width `w` and height `h`, identity and creation timestamp. -/
structure BoundingBox where
  x : ℚ
  y : ℚ
  w : ℚ
  h : ℚ
  id : String
  ts : ℤ
deriving DecidableEq

/-- Embeds `BoundingBox.update`: live draw where the box spans the stored
anchor corner `(x, y)` and the new point. -/
def BoundingBox.update (b : BoundingBox) (x_img_norm y_img_norm : ℚ) : BoundingBox :=
  { b with
    x := min b.x x_img_norm
    y := min b.y y_img_norm
    w := |x_img_norm - b.x|
    h := |y_img_norm - b.y| }

/-- Embeds `BoundingBox.move`: rigid translation with the position clamped
into `[0, 1 - w] × [0, 1 - h]`. -/
def BoundingBox.move (b : BoundingBox) (dx dy : ℚ) : BoundingBox :=
  { b with
    x := min (max (b.x + dx) 0) (1 - b.w)
    y := min (max (b.y + dy) 0) (1 - b.h) }

/-- Embeds `BoundingBox.contains`: inclusive axis-aligned membership test. -/
def BoundingBox.contains (b : BoundingBox) (nx ny : ℚ) : Bool :=
  b.x ≤ nx ∧ nx ≤ b.x + b.w ∧ b.y ≤ ny ∧ ny ≤ b.y + b.h

/-- Embeds `BoundingBox.move_point`: move one corner (0=TL, 1=TR, 2=BR, 3=BL)
with the target clamped into `[0,1]` and the opposite corner held as the
fixed point; any other index leaves the box unchanged. -/
def BoundingBox.move_point (b : BoundingBox) (index : ℕ) (nx ny : ℚ) : BoundingBox :=
  let nx := max 0 (min 1 nx)
  let ny := max 0 (min 1 ny)
  if index = 0 then
    let x_fixed := b.x + b.w
    let y_fixed := b.y + b.h
    { b with x := min nx x_fixed, y := min ny y_fixed,
             w := |nx - x_fixed|, h := |ny - y_fixed| }
  else if index = 1 then
    let x_fixed := b.x
    let y_fixed := b.y + b.h
    { b with x := min nx x_fixed, y := min ny y_fixed,
             w := |nx - x_fixed|, h := |ny - y_fixed| }
  else if index = 2 then
    let x_fixed := b.x
    let y_fixed := b.y
    { b with x := min nx x_fixed, y := min ny y_fixed,
             w := |nx - x_fixed|, h := |ny - y_fixed| }
  else if index = 3 then
    let x_fixed := b.x + b.w
    let y_fixed := b.y
    { b with x := min nx x_fixed, y := min ny y_fixed,
             w := |nx - x_fixed|, h := |ny - y_fixed| }
  else
    b

/-- Embeds `BoundingBox.delete_point`: corners are never removable. -/
def BoundingBox.delete_point (_b : BoundingBox) (_index : ℕ) : Bool :=
  false

/-- Embeds `BoundingBox.to_polygon`: the four corners flattened, in the
box's own (normalized) coordinates, exactly as the source returns them. -/
def BoundingBox.to_polygon (b : BoundingBox) : List ℚ :=
  [b.x, b.y,
   b.x + b.w, b.y,
   b.x + b.w, b.y + b.h,
   b.x, b.y + b.h]

/-- Embeds `BoundingBox.export_to_coco`. -/
def BoundingBox.export_to_coco (b : BoundingBox) (image_id ann_id : ℕ)
    (image_w image_h : ℚ) : CocoAnnotation :=
  { id := ann_id
    image_id := image_id
    category_id := 1
    bbox := [b.x * image_w, b.y * image_h, b.w * image_w, b.h * image_h]
    area := (b.w * image_w) * (b.h * image_h)
    iscrowd := 0
    segmentation := [b.to_polygon] }

/-! ### PolygonShape (`src/app/ui/polygone_shape.py`) -/

/-- Embeds the `PolygonShape` dataclass: ordered normalized vertices,
identity and creation timestamp. -/
structure PolygonShape where
  points : List (ℚ × ℚ)
  id : String
  ts : ℤ
deriving DecidableEq

/-- Embeds `PolygonShape.update`: append the new vertex only when one of its
coordinates differs from the last vertex by more than 0.002.  The source
indexes `points[-1]`, so an empty vertex list (which raises in Python) is
left unchanged here. -/
def PolygonShape.update (p : PolygonShape) (x_img_norm y_img_norm : ℚ) : PolygonShape :=
  match p.points.getLast? with
  | none => p
  | some (last_x, last_y) =>
    if 2 / 1000 < |last_x - x_img_norm| ∨ 2 / 1000 < |last_y - y_img_norm| then
      { p with points := p.points ++ [(x_img_norm, y_img_norm)] }
    else
      p

/-- Embeds `PolygonShape.move`: per-vertex translation, each vertex clamped
into `[0,1]²`. -/
def PolygonShape.move (p : PolygonShape) (dx dy : ℚ) : PolygonShape :=
  { p with
    points := p.points.map fun q => (min (max (q.1 + dx) 0) 1, min (max (q.2 + dy) 0) 1) }

/-- Embeds `PolygonShape.move_point`: replace the vertex at `index` by the
clamped target; out-of-range indices leave the polygon unchanged. -/
def PolygonShape.move_point (p : PolygonShape) (index : ℕ) (nx ny : ℚ) : PolygonShape :=
  if index < p.points.length then
    { p with points := p.points.set index (min (max nx 0) 1, min (max ny 0) 1) }
  else
    p

/-- Embeds `PolygonShape.delete_point`: remove the vertex only when more
than 3 vertices are present and the index is in range. -/
def PolygonShape.delete_point (p : PolygonShape) (index : ℕ) : PolygonShape × Bool :=
  if p.points.length ≤ 3 then (p, false)
  else if index < p.points.length then
    ({ p with points := p.points.eraseIdx index }, true)
  else (p, false)

/-- Embeds the `abs_points` accumulation loop of
`PolygonShape.export_to_coco`: vertices scaled to absolute pixels and
flattened in order. -/
def flatten_abs_points (pts : List (ℚ × ℚ)) (image_w image_h : ℚ) : List ℚ :=
  pts.foldl (fun acc q => acc ++ [q.1 * image_w, q.2 * image_h]) []

/-- Embeds `PolygonShape._compute_bbox`: `[min_x, min_y, max_x - min_x,
max_y - min_y]` over the absolute-pixel vertices.  Python's `min`/`max`
raise on an empty list; that unreachable case yields `[0,0,0,0]` here. -/
def PolygonShape.compute_bbox (p : PolygonShape) (image_w image_h : ℚ) : List ℚ :=
  match p.points.map (fun q => q.1 * image_w), p.points.map (fun q => q.2 * image_h) with
  | x0 :: xr, y0 :: yr =>
    let min_x := xr.foldl min x0
    let max_x := xr.foldl max x0
    let min_y := yr.foldl min y0
    let max_y := yr.foldl max y0
    [min_x, min_y, max_x - min_x, max_y - min_y]
  | _, _ => [0, 0, 0, 0]

/-- Embeds `PolygonShape.export_to_coco`: flattened absolute segmentation,
`area` hard-coded to `0`, bbox from `compute_bbox`. -/
def PolygonShape.export_to_coco (p : PolygonShape) (image_id ann_id : ℕ)
    (image_w image_h : ℚ) : CocoAnnotation :=
  { id := ann_id
    image_id := image_id
    category_id := 1
    segmentation := [flatten_abs_points p.points image_w image_h]
    area := 0
    bbox := p.compute_bbox image_w image_h
    iscrowd := 0 }

/-! ### VectorMask variants -/

/-- The closed union of shape kinds registered in `vector_masks.py`
(`BoundingBox` and `PolygonShape`). -/
inductive VectorMask where
  | box : BoundingBox → VectorMask
  | poly : PolygonShape → VectorMask
deriving DecidableEq

/-- Creation timestamp of a mask (the sort key used by the document). -/
def VectorMask.ts : VectorMask → ℤ
  | .box b => b.ts
  | .poly p => p.ts

/-- Dispatch of `export_to_coco` over the shape kind. -/
def VectorMask.export_to_coco (m : VectorMask) (image_id ann_id : ℕ)
    (image_w image_h : ℚ) : CocoAnnotation :=
  match m with
  | .box b => b.export_to_coco image_id ann_id image_w image_h
  | .poly p => p.export_to_coco image_id ann_id image_w image_h

/-! ### ThyraDocument (`src/app/thyra_document.py`) -/

/-- Embeds `os.path.basename` as used on the document's source path. -/
def basename (s : String) : String :=
  (s.splitOn "/").getLastD ""

/-- Ordering of masks by creation timestamp, the key of every
`sort(key=lambda x: x.ts)` call in the document. -/
def tsLe (a b : VectorMask) : Prop := a.ts ≤ b.ts

instance : DecidableRel tsLe := fun a b => inferInstanceAs (Decidable (a.ts ≤ b.ts))

instance : IsTotal VectorMask tsLe := ⟨fun a b => Int.le_total a.ts b.ts⟩

instance : IsTrans VectorMask tsLe := ⟨fun _ _ _ h1 h2 => le_trans h1 h2⟩

/-- Python's `list.sort(key=lambda x: x.ts)` is a stable sort by timestamp;
`insertionSort` with `tsLe` computes the same stable result. -/
def sortByTs (l : List VectorMask) : List VectorMask :=
  List.insertionSort tsLe l

/-- Embeds the `ThyraDocument` dataclass: source reference, live mask list
(insertion order = z-order) and the redo buffer `action_stack`. -/
structure ThyraDocument where
  src_file_path : String
  src_file_type : String
  vector_masks : List VectorMask
  action_stack : List VectorMask
deriving DecidableEq

/-- Embeds `ThyraDocument.append_vector_mask`: per-variant validation; on
success the mask goes to the end of the live list and `true` is returned,
otherwise the document is unchanged and `false` is returned. -/
def ThyraDocument.append_vector_mask (d : ThyraDocument) (vector_mask : VectorMask) :
    ThyraDocument × Bool :=
  match vector_mask with
  | .box b =>
    if 1 / 100 < b.w ∧ 1 / 100 < b.h then
      ({ d with vector_masks := d.vector_masks ++ [vector_mask] }, true)
    else
      (d, false)
  | .poly p =>
    if 3 ≤ p.points.length then
      ({ d with vector_masks := d.vector_masks ++ [vector_mask] }, true)
    else
      (d, false)

/-- Embeds `ThyraDocument.delete_vector_mask`: remove the first occurrence
of the mask if present and push it onto the redo buffer. -/
def ThyraDocument.delete_vector_mask (d : ThyraDocument) (vector_mask : VectorMask) :
    ThyraDocument :=
  if vector_mask ∈ d.vector_masks then
    { d with
      vector_masks := d.vector_masks.erase vector_mask
      action_stack := d.action_stack ++ [vector_mask] }
  else
    d

/-- Embeds `ThyraDocument.undo`: sort the live list by timestamp in place,
then pop the last (maximal-`ts`) mask onto the redo buffer; nothing is
popped when the list is empty. -/
def ThyraDocument.undo (d : ThyraDocument) : ThyraDocument :=
  match (sortByTs d.vector_masks).getLast? with
  | none => { d with vector_masks := sortByTs d.vector_masks }
  | some item =>
    { d with
      vector_masks := (sortByTs d.vector_masks).dropLast
      action_stack := d.action_stack ++ [item] }

/-- Embeds `ThyraDocument.redo`: pop the most recently retired mask from the
redo buffer and re-append it; `false` when the buffer is empty. -/
def ThyraDocument.redo (d : ThyraDocument) : ThyraDocument × Bool :=
  match d.action_stack.getLast? with
  | none => (d, false)
  | some item =>
    ({ d with
       action_stack := d.action_stack.dropLast
       vector_masks := d.vector_masks ++ [item] }, true)

/-- Embeds `ThyraDocument.clear`: empty the live list, keep the redo
buffer. -/
def ThyraDocument.clear (d : ThyraDocument) : ThyraDocument :=
  { d with vector_masks := [] }

/-- Embeds the annotation loop of `ThyraDocument.export_to_coco`: one
annotation per mask with `ann_id` counting up from its initial value. -/
def exportAnnotations (masks : List VectorMask) (ann_id : ℕ)
    (image_w image_h : ℚ) : List CocoAnnotation :=
  match masks with
  | [] => []
  | m :: rest =>
    m.export_to_coco 1 ann_id image_w image_h ::
      exportAnnotations rest (ann_id + 1) image_w image_h

/-- Embeds `ThyraDocument.export_to_coco` (the in-memory COCO structure; the
file write is outside the model): fixed image and category entries, and the
annotation loop running over `sorted(self.vector_masks, key=lambda x: x.ts)`. -/
def ThyraDocument.export_to_coco (d : ThyraDocument) (image_width image_height : ℚ) :
    CocoExport :=
  { images := [{ id := 1
                 file_name := basename d.src_file_path
                 width := image_width
                 height := image_height }]
    annotations := exportAnnotations (sortByTs d.vector_masks) 1 image_width image_height
    categories := [{ id := 1, name := "object", supercategory := "none" }] }

/-- Modelled from the spec: the shoelace-formula area of a closed polygon
given by its vertex list — the spec mandates this value for the `area` field
of the polygon export, while `PolygonShape.export_to_coco` in the source
hard-codes `area = 0`. -/
def shoelaceArea (pts : List (ℚ × ℚ)) : ℚ :=
  |((pts.zip (pts.rotate 1)).map fun q => q.1.1 * q.2.2 - q.2.1 * q.1.2).sum| / 2

/-! ### Helper lemmas -/

lemma exportAnnotations_length (masks : List VectorMask) (n : ℕ) (W H : ℚ) :
    (exportAnnotations masks n W H).length = masks.length := by
  induction masks generalizing n with
  | nil => rfl
  | cons m rest ih => simp [exportAnnotations, ih]

lemma export_id_eq (m : VectorMask) (imgid annid : ℕ) (W H : ℚ) :
    (m.export_to_coco imgid annid W H).id = annid := by
  cases m <;> rfl

lemma exportAnnotations_map_id (masks : List VectorMask) (n : ℕ) (W H : ℚ) :
    (exportAnnotations masks n W H).map (fun a => a.id) = List.range' n masks.length := by
  induction masks generalizing n with
  | nil => rfl
  | cons m rest ih =>
    simp [exportAnnotations, List.range', export_id_eq, ih]

lemma sortByTs_perm (l : List VectorMask) : (sortByTs l).Perm l :=
  List.perm_insertionSort tsLe l

lemma sortByTs_sorted (l : List VectorMask) : (sortByTs l).Sorted tsLe :=
  List.sorted_insertionSort tsLe l

lemma sorted_rel_getLast {l : List VectorMask} (hl : l.Sorted tsLe) (hne : l ≠ [])
    {x : VectorMask} (hx : x ∈ l) : tsLe x (l.getLast hne) := by
  induction l with
  | nil => exact absurd rfl hne
  | cons a t ih =>
    cases t with
    | nil =>
      rw [List.mem_singleton] at hx
      subst hx
      exact le_refl _
    | cons b t2 =>
      rw [List.getLast_cons (List.cons_ne_nil b t2)]
      rcases List.mem_cons.mp hx with hx | hx
      · subst hx
        exact List.rel_of_sorted_cons hl _ (List.getLast_mem (List.cons_ne_nil b t2))
      · exact ih hl.of_cons (List.cons_ne_nil b t2) hx

lemma foldl_min_le_init (l : List ℚ) (a : ℚ) : l.foldl min a ≤ a := by
  induction l generalizing a with
  | nil => exact le_refl a
  | cons b t ih => exact le_trans (ih (min a b)) (min_le_left a b)

lemma foldl_min_le_mem (l : List ℚ) (a : ℚ) {x : ℚ} (hx : x ∈ l) : l.foldl min a ≤ x := by
  induction l generalizing a with
  | nil => exact absurd hx (List.not_mem_nil x)
  | cons b t ih =>
    rcases List.mem_cons.mp hx with h | h
    · subst h
      exact le_trans (foldl_min_le_init t (min a x)) (min_le_right a x)
    · exact ih (min a b) h

lemma foldl_min_eq_init_or_mem (l : List ℚ) (a : ℚ) :
    l.foldl min a = a ∨ l.foldl min a ∈ l := by
  induction l generalizing a with
  | nil => exact Or.inl rfl
  | cons b t ih =>
    rcases ih (min a b) with h | h
    · rcases min_choice a b with hm | hm
      · exact Or.inl (by rw [List.foldl_cons, h, hm])
      · exact Or.inr (by rw [List.foldl_cons, h, hm]; exact List.mem_cons_self b t)
    · exact Or.inr (List.mem_cons_of_mem b h)

lemma le_foldl_max_init (l : List ℚ) (a : ℚ) : a ≤ l.foldl max a := by
  induction l generalizing a with
  | nil => exact le_refl a
  | cons b t ih => exact le_trans (le_max_left a b) (ih (max a b))

lemma le_foldl_max_mem (l : List ℚ) (a : ℚ) {x : ℚ} (hx : x ∈ l) : x ≤ l.foldl max a := by
  induction l generalizing a with
  | nil => exact absurd hx (List.not_mem_nil x)
  | cons b t ih =>
    rcases List.mem_cons.mp hx with h | h
    · subst h
      exact le_trans (le_max_right a x) (le_foldl_max_init t (max a x))
    · exact ih (max a b) h

lemma foldl_max_eq_init_or_mem (l : List ℚ) (a : ℚ) :
    l.foldl max a = a ∨ l.foldl max a ∈ l := by
  induction l generalizing a with
  | nil => exact Or.inl rfl
  | cons b t ih =>
    rcases ih (max a b) with h | h
    · rcases max_choice a b with hm | hm
      · exact Or.inl (by rw [List.foldl_cons, h, hm])
      · exact Or.inr (by rw [List.foldl_cons, h, hm]; exact List.mem_cons_self b t)
    · exact Or.inr (List.mem_cons_of_mem b h)

lemma foldl_extend_eq (f : ℚ × ℚ → List ℚ) (pts : List (ℚ × ℚ)) (acc : List ℚ) :
    pts.foldl (fun a q => a ++ f q) acc = acc ++ (pts.map f).flatten := by
  induction pts generalizing acc with
  | nil => simp
  | cons q rest ih => simp [ih, List.append_assoc]

lemma flatten_abs_points_eq (pts : List (ℚ × ℚ)) (W H : ℚ) :
    flatten_abs_points pts W H = (pts.map fun q => [q.1 * W, q.2 * H]).flatten := by
  simpa using foldl_extend_eq (fun q => [q.1 * W, q.2 * H]) pts []

lemma undo_eq_none (d : ThyraDocument) (h : (sortByTs d.vector_masks).getLast? = none) :
    d.undo = { d with vector_masks := sortByTs d.vector_masks } := by
  unfold ThyraDocument.undo
  rw [h]

lemma undo_eq_some (d : ThyraDocument) (m : VectorMask)
    (h : (sortByTs d.vector_masks).getLast? = some m) :
    d.undo = { d with
      vector_masks := (sortByTs d.vector_masks).dropLast
      action_stack := d.action_stack ++ [m] } := by
  unfold ThyraDocument.undo
  rw [h]

lemma compute_video_rect_wh_pos (iw ih ww wh : ℚ) (hiw : 0 < iw) (hih : 0 < ih)
    (hww : 0 < ww) (hwh : 0 < wh) :
    0 < (compute_video_rect iw ih ww wh).w ∧ 0 < (compute_video_rect iw ih ww wh).h := by
  unfold compute_video_rect
  rw [if_neg (by simp only [not_or, not_le]; exact ⟨hiw, hih⟩)]
  dsimp only
  split
  · exact ⟨mul_pos (div_pos hiw hih) hwh, hwh⟩
  · exact ⟨hww, div_pos hww (div_pos hiw hih)⟩

/-! ### Claim theorems -/

/-- C4: when the live collection is non-empty, `ThyraDocument.undo` removes
exactly one mask whose creation timestamp is maximal among the live masks
(regardless of insertion order) and pushes it onto the redo buffer; when the
live collection is empty, `undo` changes nothing. -/
theorem undo_removes_max_ts (d : ThyraDocument) :
    (d.vector_masks = [] → d.undo = d) ∧
    (d.vector_masks ≠ [] →
      ∃ m, m ∈ d.vector_masks ∧
        (∀ m2 ∈ d.vector_masks, m2.ts ≤ m.ts) ∧
        d.undo.action_stack = d.action_stack ++ [m] ∧
        (d.undo.vector_masks ++ [m]).Perm d.vector_masks) := by
  constructor
  · intro h
    have hs : sortByTs d.vector_masks = [] := by rw [h]; rfl
    have h0 : (sortByTs d.vector_masks).getLast? = none := by rw [hs]; rfl
    rw [undo_eq_none d h0, hs, ← h]
  · intro h
    have hsne : sortByTs d.vector_masks ≠ [] := by
      intro hc
      exact h (hc ▸ sortByTs_perm d.vector_masks).symm.eq_nil
    have hsome : (sortByTs d.vector_masks).getLast? =
        some ((sortByTs d.vector_masks).getLast hsne) :=
      List.getLast?_eq_getLast _ hsne
    refine ⟨(sortByTs d.vector_masks).getLast hsne, ?_, ?_, ?_, ?_⟩
    · exact (sortByTs_perm d.vector_masks).mem_iff.mp (List.getLast_mem hsne)
    · intro m2 hm2
      exact sorted_rel_getLast (sortByTs_sorted d.vector_masks) hsne
        ((sortByTs_perm d.vector_masks).mem_iff.mpr hm2)
    · rw [undo_eq_some d _ hsome]
    · rw [undo_eq_some d _ hsome]
      show ((sortByTs d.vector_masks).dropLast ++
        [(sortByTs d.vector_masks).getLast hsne]).Perm d.vector_masks
      rw [List.dropLast_append_getLast hsne]
      exact sortByTs_perm d.vector_masks

/-- C4 witness: a document holding masks A (ts 10) and B (ts 20), inserted
with B first, satisfies the non-emptiness hypothesis and the undo
conclusion. -/
theorem undo_removes_max_ts_witness :
    (ThyraDocument.mk "f" "image"
        [VectorMask.box ⟨0, 0, 1/2, 1/2, "B", 20⟩,
         VectorMask.box ⟨0, 0, 1/4, 1/4, "A", 10⟩] []).vector_masks ≠ [] ∧
    (∃ m, m ∈ (ThyraDocument.mk "f" "image"
        [VectorMask.box ⟨0, 0, 1/2, 1/2, "B", 20⟩,
         VectorMask.box ⟨0, 0, 1/4, 1/4, "A", 10⟩] []).vector_masks ∧
      (∀ m2 ∈ (ThyraDocument.mk "f" "image"
        [VectorMask.box ⟨0, 0, 1/2, 1/2, "B", 20⟩,
         VectorMask.box ⟨0, 0, 1/4, 1/4, "A", 10⟩] []).vector_masks, m2.ts ≤ m.ts) ∧
      (ThyraDocument.mk "f" "image"
        [VectorMask.box ⟨0, 0, 1/2, 1/2, "B", 20⟩,
         VectorMask.box ⟨0, 0, 1/4, 1/4, "A", 10⟩] []).undo.action_stack = [] ++ [m] ∧
      ((ThyraDocument.mk "f" "image"
        [VectorMask.box ⟨0, 0, 1/2, 1/2, "B", 20⟩,
         VectorMask.box ⟨0, 0, 1/4, 1/4, "A", 10⟩] []).undo.vector_masks ++ [m]).Perm
        (ThyraDocument.mk "f" "image"
        [VectorMask.box ⟨0, 0, 1/2, 1/2, "B", 20⟩,
         VectorMask.box ⟨0, 0, 1/4, 1/4, "A", 10⟩] []).vector_masks) :=
  ⟨by simp, (undo_removes_max_ts _).2 (by simp)⟩

/-- C5: after `undo`, the remaining live collection is ordered by
nondecreasing creation timestamp — the sort performed inside `undo` is
visible as a frame effect on the z-order. -/
theorem undo_sorts_remaining (d : ThyraDocument)
    (_h2 : 2 ≤ d.undo.vector_masks.length) :
    d.undo.vector_masks.Sorted tsLe := by
  rcases hl : (sortByTs d.vector_masks).getLast? with _ | m
  · rw [undo_eq_none d hl]
    exact sortByTs_sorted d.vector_masks
  · rw [undo_eq_some d m hl]
    exact List.Pairwise.sublist (List.dropLast_sublist _) (sortByTs_sorted d.vector_masks)

/-- C5 witness: a three-mask document whose undo leaves two masks, in
timestamp order. -/
theorem undo_sorts_remaining_witness :
    2 ≤ (ThyraDocument.mk "f" "image"
        [VectorMask.box ⟨0, 0, 1/2, 1/2, "C", 30⟩,
         VectorMask.box ⟨0, 0, 1/4, 1/4, "A", 10⟩,
         VectorMask.box ⟨0, 0, 1/3, 1/3, "B", 20⟩] []).undo.vector_masks.length ∧
    (ThyraDocument.mk "f" "image"
        [VectorMask.box ⟨0, 0, 1/2, 1/2, "C", 30⟩,
         VectorMask.box ⟨0, 0, 1/4, 1/4, "A", 10⟩,
         VectorMask.box ⟨0, 0, 1/3, 1/3, "B", 20⟩] []).undo.vector_masks.Sorted tsLe :=
  ⟨by norm_num [ThyraDocument.undo, sortByTs, tsLe, VectorMask.ts],
   undo_sorts_remaining _ (by norm_num [ThyraDocument.undo, sortByTs, tsLe, VectorMask.ts])⟩

/-- C6: `ThyraDocument.append_vector_mask` rejects a bounding box with
`w ≤ 0.01` or `h ≤ 0.01` and a polygon with fewer than 3 points, returning
`false` with the document unchanged; a box with `w > 0.01` and `h > 0.01`
and a polygon with at least 3 points are appended at the end of the live
collection with result `true`. -/
theorem append_validation_spec (d : ThyraDocument) (b : BoundingBox) (p : PolygonShape) :
    (b.w ≤ 1 / 100 ∨ b.h ≤ 1 / 100 →
      d.append_vector_mask (.box b) = (d, false)) ∧
    (1 / 100 < b.w → 1 / 100 < b.h →
      d.append_vector_mask (.box b) =
        ({ d with vector_masks := d.vector_masks ++ [.box b] }, true)) ∧
    (p.points.length < 3 →
      d.append_vector_mask (.poly p) = (d, false)) ∧
    (3 ≤ p.points.length →
      d.append_vector_mask (.poly p) =
        ({ d with vector_masks := d.vector_masks ++ [.poly p] }, true)) := by
  refine ⟨fun h => ?_, fun hw hh => ?_, fun h => ?_, fun h => ?_⟩
  · simp only [ThyraDocument.append_vector_mask]
    rw [if_neg]
    rintro ⟨hw, hh⟩
    rcases h with h | h
    · exact absurd hw (not_lt.mpr h)
    · exact absurd hh (not_lt.mpr h)
  · simp only [ThyraDocument.append_vector_mask]
    rw [if_pos ⟨hw, hh⟩]
  · simp only [ThyraDocument.append_vector_mask]
    rw [if_neg (not_le.mpr h)]
  · simp only [ThyraDocument.append_vector_mask]
    rw [if_pos h]

/-- C6 witness: a thin box and a 2-point polygon are rejected on an empty
document, a valid box and a 3-point polygon are appended. -/
theorem append_validation_spec_witness :
    (ThyraDocument.mk "" "" [] []).append_vector_mask
        (.box ⟨0, 0, 1/200, 1/2, "s", 0⟩) = (ThyraDocument.mk "" "" [] [], false) ∧
    (ThyraDocument.mk "" "" [] []).append_vector_mask
        (.box ⟨0, 0, 1/2, 1/2, "g", 1⟩) =
      (ThyraDocument.mk "" "" [VectorMask.box ⟨0, 0, 1/2, 1/2, "g", 1⟩] [], true) ∧
    (ThyraDocument.mk "" "" [] []).append_vector_mask
        (.poly ⟨[(0, 0), (1, 0)], "p2", 2⟩) = (ThyraDocument.mk "" "" [] [], false) ∧
    (ThyraDocument.mk "" "" [] []).append_vector_mask
        (.poly ⟨[(0, 0), (1, 0), (0, 1)], "p3", 3⟩) =
      (ThyraDocument.mk "" "" [VectorMask.poly ⟨[(0, 0), (1, 0), (0, 1)], "p3", 3⟩] [], true) :=
  ⟨(append_validation_spec (ThyraDocument.mk "" "" [] []) ⟨0, 0, 1/200, 1/2, "s", 0⟩
      ⟨[], "q", 0⟩).1 (Or.inl (by norm_num)),
   (append_validation_spec (ThyraDocument.mk "" "" [] []) ⟨0, 0, 1/2, 1/2, "g", 1⟩
      ⟨[], "q", 0⟩).2.1 (by norm_num) (by norm_num),
   (append_validation_spec (ThyraDocument.mk "" "" [] []) ⟨0, 0, 1/2, 1/2, "g", 1⟩
      ⟨[(0, 0), (1, 0)], "p2", 2⟩).2.2.1 (by norm_num),
   (append_validation_spec (ThyraDocument.mk "" "" [] []) ⟨0, 0, 1/2, 1/2, "g", 1⟩
      ⟨[(0, 0), (1, 0), (0, 1)], "p3", 3⟩).2.2.2 (by norm_num)⟩

/-- C8: `BoundingBox.move` translates rigidly (w and h unchanged) and the
resulting box satisfies `0 ≤ x`, `0 ≤ y`, `x + w ≤ 1` and `y + h ≤ 1`, for
every translation, given the data-model invariant that the normalized
extents satisfy `w ≤ 1` and `h ≤ 1`. -/
theorem move_stays_in_bounds (b : BoundingBox) (dx dy : ℚ)
    (hw : b.w ≤ 1) (hh : b.h ≤ 1) :
    0 ≤ (b.move dx dy).x ∧ 0 ≤ (b.move dx dy).y ∧
    (b.move dx dy).x + (b.move dx dy).w ≤ 1 ∧
    (b.move dx dy).y + (b.move dx dy).h ≤ 1 ∧
    (b.move dx dy).w = b.w ∧ (b.move dx dy).h = b.h := by
  have hx : (b.move dx dy).x = min (max (b.x + dx) 0) (1 - b.w) := rfl
  have hy : (b.move dx dy).y = min (max (b.y + dy) 0) (1 - b.h) := rfl
  have hwq : (b.move dx dy).w = b.w := rfl
  have hhq : (b.move dx dy).h = b.h := rfl
  refine ⟨?_, ?_, ?_, ?_, hwq, hhq⟩
  · rw [hx]
    exact le_min (le_max_right _ _) (by linarith)
  · rw [hy]
    exact le_min (le_max_right _ _) (by linarith)
  · rw [hx, hwq]
    have := min_le_right (max (b.x + dx) 0) (1 - b.w)
    linarith
  · rw [hy, hhq]
    have := min_le_right (max (b.y + dy) 0) (1 - b.h)
    linarith

/-- C8 witness: moving a half-sized box far beyond the right-bottom corner
keeps it inside the unit square. -/
theorem move_stays_in_bounds_witness :
    ((1:ℚ)/2 ≤ 1) ∧
    (0 ≤ (BoundingBox.move ⟨0, 0, 1/2, 1/2, "w8", 0⟩ 2 2).x ∧
     0 ≤ (BoundingBox.move ⟨0, 0, 1/2, 1/2, "w8", 0⟩ 2 2).y ∧
     (BoundingBox.move ⟨0, 0, 1/2, 1/2, "w8", 0⟩ 2 2).x +
       (BoundingBox.move ⟨0, 0, 1/2, 1/2, "w8", 0⟩ 2 2).w ≤ 1 ∧
     (BoundingBox.move ⟨0, 0, 1/2, 1/2, "w8", 0⟩ 2 2).y +
       (BoundingBox.move ⟨0, 0, 1/2, 1/2, "w8", 0⟩ 2 2).h ≤ 1 ∧
     (BoundingBox.move ⟨0, 0, 1/2, 1/2, "w8", 0⟩ 2 2).w = 1/2 ∧
     (BoundingBox.move ⟨0, 0, 1/2, 1/2, "w8", 0⟩ 2 2).h = 1/2) :=
  ⟨by norm_num, move_stays_in_bounds ⟨0, 0, 1/2, 1/2, "w8", 0⟩ 2 2 (by norm_num) (by norm_num)⟩

/-- C1: evaluating `BoundingBox.export_to_coco` at the spec's scenario
(box x=0.1, y=0.2, w=0.3, h=0.4 on a 1000 by 500 image) produces the claimed
bbox, area and iscrowd, but the segmentation holds the box's normalized
corner coordinates, not the 4 corners in absolute pixels as the claim and
the source's own comment (`COCO segmentation expects absolute coords`)
state. -/
theorem box_export_bug_eval :
    (BoundingBox.export_to_coco ⟨1/10, 2/10, 3/10, 4/10, "b1", 7⟩ 1 1 1000 500).bbox
      = [100, 100, 300, 200] ∧
    (BoundingBox.export_to_coco ⟨1/10, 2/10, 3/10, 4/10, "b1", 7⟩ 1 1 1000 500).area
      = 60000 ∧
    (BoundingBox.export_to_coco ⟨1/10, 2/10, 3/10, 4/10, "b1", 7⟩ 1 1 1000 500).iscrowd
      = 0 ∧
    (BoundingBox.export_to_coco ⟨1/10, 2/10, 3/10, 4/10, "b1", 7⟩ 1 1 1000 500).segmentation
      = [[1/10, 2/10, 4/10, 2/10, 4/10, 6/10, 1/10, 6/10]] ∧
    (BoundingBox.export_to_coco ⟨1/10, 2/10, 3/10, 4/10, "b1", 7⟩ 1 1 1000 500).segmentation
      ≠ [[100, 100, 400, 100, 400, 300, 100, 300]] := by
  refine ⟨?_, ?_, rfl, ?_, ?_⟩ <;>
    norm_num [BoundingBox.export_to_coco, BoundingBox.to_polygon]

/-- C2 counterexample: for the committed triangle (0,0), (1,0), (1,1) on a
10 by 10 image the exported area is 0, while the shoelace formula on the
absolute points gives 50 — the claim's area clause fails on the code. -/
theorem polygon_export_area_zero_cex :
    (PolygonShape.export_to_coco ⟨[(0, 0), (1, 0), (1, 1)], "p2", 0⟩ 1 1 10 10).area = 0 ∧
    shoelaceArea (([(0, 0), (1, 0), (1, 1)] : List (ℚ × ℚ)).map fun q => (q.1 * 10, q.2 * 10))
      = 50 ∧
    (PolygonShape.export_to_coco ⟨[(0, 0), (1, 0), (1, 1)], "p2", 0⟩ 1 1 10 10).area
      ≠ shoelaceArea (([(0, 0), (1, 0), (1, 1)] : List (ℚ × ℚ)).map
          fun q => (q.1 * 10, q.2 * 10)) := by
  refine ⟨rfl, ?_, ?_⟩ <;>
    norm_num [shoelaceArea, List.rotate, PolygonShape.export_to_coco]

/-- C2 amended: for every committed (non-empty) polygon, the export's
segmentation is the flattened absolute-pixel vertex list, its bbox is the
axis-aligned bounds of the absolute points, `iscrowd = 0` — and its area is
the constant 0 that the source hard-codes, not the shoelace value the
original claim states. -/
theorem polygon_export_spec (p : PolygonShape) (q0 : ℚ × ℚ) (rest : List (ℚ × ℚ))
    (hp : p.points = q0 :: rest) (imgid annid : ℕ) (W H : ℚ) :
    (p.export_to_coco imgid annid W H).id = annid ∧
    (p.export_to_coco imgid annid W H).image_id = imgid ∧
    (p.export_to_coco imgid annid W H).category_id = 1 ∧
    (p.export_to_coco imgid annid W H).iscrowd = 0 ∧
    (p.export_to_coco imgid annid W H).area = 0 ∧
    (p.export_to_coco imgid annid W H).segmentation
      = [(p.points.map fun q => [q.1 * W, q.2 * H]).flatten] ∧
    ∃ mx my Mx My,
      (p.export_to_coco imgid annid W H).bbox = [mx, my, Mx - mx, My - my] ∧
      mx ∈ p.points.map (fun q => q.1 * W) ∧ Mx ∈ p.points.map (fun q => q.1 * W) ∧
      my ∈ p.points.map (fun q => q.2 * H) ∧ My ∈ p.points.map (fun q => q.2 * H) ∧
      (∀ v ∈ p.points.map (fun q => q.1 * W), mx ≤ v ∧ v ≤ Mx) ∧
      (∀ v ∈ p.points.map (fun q => q.2 * H), my ≤ v ∧ v ≤ My) := by
  refine ⟨rfl, rfl, rfl, rfl, rfl, ?_, ?_⟩
  · show [flatten_abs_points p.points W H] = _
    rw [flatten_abs_points_eq]
  · have hbbox : (p.export_to_coco imgid annid W H).bbox = p.compute_bbox W H := rfl
    rw [hbbox]
    unfold PolygonShape.compute_bbox
    rw [hp]
    simp only [List.map_cons]
    refine ⟨(rest.map fun q => q.1 * W).foldl min (q0.1 * W),
            (rest.map fun q => q.2 * H).foldl min (q0.2 * H),
            (rest.map fun q => q.1 * W).foldl max (q0.1 * W),
            (rest.map fun q => q.2 * H).foldl max (q0.2 * H),
            rfl, ?_, ?_, ?_, ?_, ?_, ?_⟩
    · rcases foldl_min_eq_init_or_mem (rest.map fun q => q.1 * W) (q0.1 * W) with h | h
      · rw [h]
        exact List.mem_cons_self _ _
      · exact List.mem_cons_of_mem _ h
    · rcases foldl_max_eq_init_or_mem (rest.map fun q => q.1 * W) (q0.1 * W) with h | h
      · rw [h]
        exact List.mem_cons_self _ _
      · exact List.mem_cons_of_mem _ h
    · rcases foldl_min_eq_init_or_mem (rest.map fun q => q.2 * H) (q0.2 * H) with h | h
      · rw [h]
        exact List.mem_cons_self _ _
      · exact List.mem_cons_of_mem _ h
    · rcases foldl_max_eq_init_or_mem (rest.map fun q => q.2 * H) (q0.2 * H) with h | h
      · rw [h]
        exact List.mem_cons_self _ _
      · exact List.mem_cons_of_mem _ h
    · intro v hv
      rcases List.mem_cons.mp hv with h | h
      · subst h
        exact ⟨foldl_min_le_init _ _, le_foldl_max_init _ _⟩
      · exact ⟨foldl_min_le_mem _ _ h, le_foldl_max_mem _ _ h⟩
    · intro v hv
      rcases List.mem_cons.mp hv with h | h
      · subst h
        exact ⟨foldl_min_le_init _ _, le_foldl_max_init _ _⟩
      · exact ⟨foldl_min_le_mem _ _ h, le_foldl_max_mem _ _ h⟩

/-- C2 amended witness: the triangle (0,0), (1,0), (1,1) on a 10 by 10
image satisfies the non-empty hypothesis and the amended export
description. -/
theorem polygon_export_spec_witness :
    (PolygonShape.points ⟨[(0, 0), (1, 0), (1, 1)], "p2", 0⟩ = (0, 0) :: [(1, 0), (1, 1)]) ∧
    ((PolygonShape.export_to_coco ⟨[(0, 0), (1, 0), (1, 1)], "p2", 0⟩ 1 1 10 10).id = 1 ∧
     (PolygonShape.export_to_coco ⟨[(0, 0), (1, 0), (1, 1)], "p2", 0⟩ 1 1 10 10).image_id = 1 ∧
     (PolygonShape.export_to_coco ⟨[(0, 0), (1, 0), (1, 1)], "p2", 0⟩ 1 1 10 10).category_id = 1 ∧
     (PolygonShape.export_to_coco ⟨[(0, 0), (1, 0), (1, 1)], "p2", 0⟩ 1 1 10 10).iscrowd = 0 ∧
     (PolygonShape.export_to_coco ⟨[(0, 0), (1, 0), (1, 1)], "p2", 0⟩ 1 1 10 10).area = 0 ∧
     (PolygonShape.export_to_coco ⟨[(0, 0), (1, 0), (1, 1)], "p2", 0⟩ 1 1 10 10).segmentation
       = [((PolygonShape.points ⟨[(0, 0), (1, 0), (1, 1)], "p2", 0⟩).map
            fun q => [q.1 * 10, q.2 * 10]).flatten] ∧
     ∃ mx my Mx My,
       (PolygonShape.export_to_coco ⟨[(0, 0), (1, 0), (1, 1)], "p2", 0⟩ 1 1 10 10).bbox
         = [mx, my, Mx - mx, My - my] ∧
       mx ∈ (PolygonShape.points ⟨[(0, 0), (1, 0), (1, 1)], "p2", 0⟩).map (fun q => q.1 * 10) ∧
       Mx ∈ (PolygonShape.points ⟨[(0, 0), (1, 0), (1, 1)], "p2", 0⟩).map (fun q => q.1 * 10) ∧
       my ∈ (PolygonShape.points ⟨[(0, 0), (1, 0), (1, 1)], "p2", 0⟩).map (fun q => q.2 * 10) ∧
       My ∈ (PolygonShape.points ⟨[(0, 0), (1, 0), (1, 1)], "p2", 0⟩).map (fun q => q.2 * 10) ∧
       (∀ v ∈ (PolygonShape.points ⟨[(0, 0), (1, 0), (1, 1)], "p2", 0⟩).map
          (fun q => q.1 * 10), mx ≤ v ∧ v ≤ Mx) ∧
       (∀ v ∈ (PolygonShape.points ⟨[(0, 0), (1, 0), (1, 1)], "p2", 0⟩).map
          (fun q => q.2 * 10), my ≤ v ∧ v ≤ My)) :=
  ⟨rfl, polygon_export_spec ⟨[(0, 0), (1, 0), (1, 1)], "p2", 0⟩ (0, 0) [(1, 0), (1, 1)]
    rfl 1 1 10 10⟩

/-- C3 counterexample: in a document whose live list holds B (ts 20) before
A (ts 10), the first exported annotation (id 1) is not the export of the
first mask in Document order — the exporter iterates the masks sorted by
timestamp instead. -/
theorem export_order_cex :
    ((ThyraDocument.mk "f" "image"
        [VectorMask.box ⟨0, 0, 1/2, 1/2, "B", 20⟩,
         VectorMask.box ⟨0, 0, 1/4, 1/4, "A", 10⟩] []).export_to_coco 100 100).annotations.head?
      ≠ some ((VectorMask.box ⟨0, 0, 1/2, 1/2, "B", 20⟩).export_to_coco 1 1 100 100) := by
  norm_num [ThyraDocument.export_to_coco, sortByTs, tsLe, VectorMask.ts, exportAnnotations,
    VectorMask.export_to_coco, BoundingBox.export_to_coco, CocoAnnotation.mk.injEq]

/-- C3 amended: the export contains exactly one annotation per live mask,
with ids 1..N, and exactly the one fixed category (id 1, name "object");
the annotations are produced in nondecreasing-timestamp order of the live
collection (a permutation of it), not in Document (insertion/z) order. -/
theorem export_structure_spec (d : ThyraDocument) (W H : ℚ) :
    (d.export_to_coco W H).annotations.length = d.vector_masks.length ∧
    (d.export_to_coco W H).annotations.map (fun a => a.id)
      = List.range' 1 d.vector_masks.length ∧
    (d.export_to_coco W H).categories = [⟨1, "object", "none"⟩] ∧
    ∃ ms, ms.Perm d.vector_masks ∧ ms.Sorted tsLe ∧
      (d.export_to_coco W H).annotations = exportAnnotations ms 1 W H := by
  refine ⟨?_, ?_, rfl,
    ⟨sortByTs d.vector_masks, sortByTs_perm _, sortByTs_sorted _, rfl⟩⟩
  · show (exportAnnotations (sortByTs d.vector_masks) 1 W H).length = _
    rw [exportAnnotations_length, (sortByTs_perm d.vector_masks).length_eq]
  · show (exportAnnotations (sortByTs d.vector_masks) 1 W H).map (fun a => a.id) = _
    rw [exportAnnotations_map_id, (sortByTs_perm d.vector_masks).length_eq]

/-- C9 counterexample: with last vertex (0,0), the point
(0.0015, 0.0015) has Euclidean distance greater than 0.002 from it
(0.0015² + 0.0015² > 0.002²), yet `PolygonShape.update` does not append
it — the source compares each coordinate separately. -/
theorem update_euclidean_cex :
    ((3:ℚ)/2000 - 0)^2 + ((3:ℚ)/2000 - 0)^2 > (2/1000)^2 ∧
    (PolygonShape.update ⟨[(0, 0)], "p9", 0⟩ (3/2000) (3/2000)).points
      = [((0:ℚ), (0:ℚ))] := by
  constructor
  · norm_num
  · norm_num [PolygonShape.update, abs_eq_max_neg, max_def]

/-- C9 amended: for a polygon with at least one vertex, `update` appends the
new point exactly when its Chebyshev distance (max of the per-coordinate
absolute differences) from the last vertex exceeds 0.002; otherwise the
vertex list is unchanged. -/
theorem update_chebyshev_spec (p : PolygonShape) (x y lx ly : ℚ)
    (h : p.points.getLast? = some (lx, ly)) :
    (p.update x y).points =
      if 2 / 1000 < max |lx - x| |ly - y| then p.points ++ [(x, y)] else p.points := by
  unfold PolygonShape.update
  rw [h]
  dsimp only
  by_cases hc : 2 / 1000 < |lx - x| ∨ 2 / 1000 < |ly - y|
  · rw [if_pos hc, if_pos (lt_max_iff.mpr hc)]
  · rw [if_neg hc, if_neg (fun hm => hc (lt_max_iff.mp hm))]

/-- C9 amended witness: from last vertex (0,0), the point (0.1, 0)
(Chebyshev distance 0.1 > 0.002) is appended. -/
theorem update_chebyshev_spec_witness :
    (PolygonShape.points ⟨[(0, 0)], "p9w", 0⟩).getLast? = some (0, 0) ∧
    (PolygonShape.update ⟨[(0, 0)], "p9w", 0⟩ (1/10) 0).points =
      (if 2 / 1000 < max |(0:ℚ) - 1/10| |(0:ℚ) - 0| then
        [((0:ℚ), (0:ℚ))] ++ [(1/10, 0)] else [((0:ℚ), (0:ℚ))]) :=
  ⟨rfl, update_chebyshev_spec ⟨[(0, 0)], "p9w", 0⟩ (1/10) 0 0 0 rfl⟩

/-- C10 counterexample: on the box (x=0.1, y=0.1, w=0.2, h=0.2), moving
corner 0 to (0.5, 0.5) — past the opposite corner (0.3, 0.3) — flips the
box, so the bottom-right corner becomes (0.5, 0.5) instead of staying
(0.3, 0.3): the claim fails for targets beyond the opposite corner. -/
theorem move_point_tl_cex :
    (BoundingBox.x ⟨1/10, 1/10, 2/10, 2/10, "bA", 0⟩) +
      (BoundingBox.w ⟨1/10, 1/10, 2/10, 2/10, "bA", 0⟩) = 3/10 ∧
    (BoundingBox.move_point ⟨1/10, 1/10, 2/10, 2/10, "bA", 0⟩ 0 (1/2) (1/2)).x
      + (BoundingBox.move_point ⟨1/10, 1/10, 2/10, 2/10, "bA", 0⟩ 0 (1/2) (1/2)).w
      = 1/2 ∧
    ((BoundingBox.move_point ⟨1/10, 1/10, 2/10, 2/10, "bA", 0⟩ 0 (1/2) (1/2)).x
      + (BoundingBox.move_point ⟨1/10, 1/10, 2/10, 2/10, "bA", 0⟩ 0 (1/2) (1/2)).w
      ≠ 3/10) := by
  refine ⟨by norm_num, ?_, ?_⟩ <;>
    norm_num [BoundingBox.move_point, abs_eq_max_neg, max_def, min_def]

/-- C10 amended: `move_point 0 nx ny` leaves the bottom-right corner
`(x + w, y + h)` numerically unchanged provided the clamped target stays at
or before the opposite corner on both axes (so corner 0 remains the
top-left); beyond it the box flips and the bottom-right moves. -/
theorem move_point_tl_keeps_br (b : BoundingBox) (nx ny : ℚ)
    (hx : max 0 (min 1 nx) ≤ b.x + b.w) (hy : max 0 (min 1 ny) ≤ b.y + b.h) :
    (b.move_point 0 nx ny).x + (b.move_point 0 nx ny).w = b.x + b.w ∧
    (b.move_point 0 nx ny).y + (b.move_point 0 nx ny).h = b.y + b.h := by
  have h0 : (b.move_point 0 nx ny).x = min (max 0 (min 1 nx)) (b.x + b.w) := rfl
  have h1 : (b.move_point 0 nx ny).w = |max 0 (min 1 nx) - (b.x + b.w)| := rfl
  have h2 : (b.move_point 0 nx ny).y = min (max 0 (min 1 ny)) (b.y + b.h) := rfl
  have h3 : (b.move_point 0 nx ny).h = |max 0 (min 1 ny) - (b.y + b.h)| := rfl
  constructor
  · rw [h0, h1, min_eq_left hx, abs_of_nonpos (by linarith)]
    ring
  · rw [h2, h3, min_eq_left hy, abs_of_nonpos (by linarith)]
    ring

/-- C10 amended witness: on the box (0.2, 0.2, 0.5, 0.5), moving corner 0
to (0.1, 0.3) keeps the bottom-right corner (0.7, 0.7). -/
theorem move_point_tl_keeps_br_witness :
    max 0 (min 1 ((1:ℚ)/10)) ≤ 2/10 + 5/10 ∧
    max 0 (min 1 ((3:ℚ)/10)) ≤ 2/10 + 5/10 ∧
    ((BoundingBox.move_point ⟨2/10, 2/10, 5/10, 5/10, "bW", 0⟩ 0 (1/10) (3/10)).x
      + (BoundingBox.move_point ⟨2/10, 2/10, 5/10, 5/10, "bW", 0⟩ 0 (1/10) (3/10)).w
      = 2/10 + 5/10 ∧
     (BoundingBox.move_point ⟨2/10, 2/10, 5/10, 5/10, "bW", 0⟩ 0 (1/10) (3/10)).y
      + (BoundingBox.move_point ⟨2/10, 2/10, 5/10, 5/10, "bW", 0⟩ 0 (1/10) (3/10)).h
      = 2/10 + 5/10) :=
  ⟨by norm_num [max_def, min_def], by norm_num [max_def, min_def],
   move_point_tl_keeps_br ⟨2/10, 2/10, 5/10, 5/10, "bW", 0⟩ (1/10) (3/10)
     (by norm_num [max_def, min_def]) (by norm_num [max_def, min_def])⟩

/-- C7 counterexample: with a 1 by 1 image in a 2 by 1 widget (display rect
from x=0.5 to x=1.5), the widget point (0,0) lies in the letterbox margin;
`widget_to_image_coords` clamps it and the round trip returns (0.5, 0), an
error of 0.5 — far beyond any floating-point tolerance — so the claim fails
for points outside the display rect. -/
theorem roundtrip_cex :
    (image_to_widget_coords
      (widget_to_image_coords (0, 0) 1 1 2 1 (some (compute_video_rect 1 1 2 1))).1
      (widget_to_image_coords (0, 0) 1 1 2 1 (some (compute_video_rect 1 1 2 1))).2
      1 1 2 1 (some (compute_video_rect 1 1 2 1))) = ((1:ℚ)/2, 0) ∧
    ((1:ℚ)/2, (0:ℚ)) ≠ ((0:ℚ), (0:ℚ)) := by
  constructor
  · norm_num [compute_video_rect, widget_to_image_coords, image_to_widget_coords]
  · norm_num [Prod.ext_iff]

/-- C7 amended: for positive image and viewport sizes and any widget point
inside the display rect computed by `compute_video_rect`, mapping to image
coordinates and back through the same rect returns the point exactly (hence
within any floating-point tolerance); points in the letterbox margins are
clamped and do not round-trip. -/
theorem roundtrip_exact (px py iw ih ww wh : ℚ)
    (hiw : 0 < iw) (hih : 0 < ih) (hww : 0 < ww) (hwh : 0 < wh)
    (hx1 : (compute_video_rect iw ih ww wh).x ≤ px)
    (hx2 : px ≤ (compute_video_rect iw ih ww wh).x + (compute_video_rect iw ih ww wh).w)
    (hy1 : (compute_video_rect iw ih ww wh).y ≤ py)
    (hy2 : py ≤ (compute_video_rect iw ih ww wh).y + (compute_video_rect iw ih ww wh).h) :
    image_to_widget_coords
      (widget_to_image_coords (px, py) iw ih ww wh (some (compute_video_rect iw ih ww wh))).1
      (widget_to_image_coords (px, py) iw ih ww wh (some (compute_video_rect iw ih ww wh))).2
      iw ih ww wh (some (compute_video_rect iw ih ww wh)) = (px, py) := by
  obtain ⟨hrw, hrh⟩ := compute_video_rect_wh_pos iw ih ww wh hiw hih hww hwh
  set r := compute_video_rect iw ih ww wh with hr
  have hcond : ¬(iw ≤ 0 ∨ ih ≤ 0) := by
    simp only [not_or, not_le]
    exact ⟨hiw, hih⟩
  have h0x : 0 ≤ (px - r.x) / r.w := div_nonneg (by linarith) hrw.le
  have h1x : (px - r.x) / r.w ≤ 1 := (div_le_one hrw).mpr (by linarith)
  have h0y : 0 ≤ (py - r.y) / r.h := div_nonneg (by linarith) hrh.le
  have h1y : (py - r.y) / r.h ≤ 1 := (div_le_one hrh).mpr (by linarith)
  have hw2i : widget_to_image_coords (px, py) iw ih ww wh (some r) =
      ((px - r.x) / r.w * iw, (py - r.y) / r.h * ih) := by
    simp only [widget_to_image_coords, Option.getD_some, if_neg hcond]
    rw [max_eq_right h0x, min_eq_left h1x, max_eq_right h0y, min_eq_left h1y]
  rw [hw2i]
  simp only [image_to_widget_coords, Option.getD_some, if_neg hcond]
  rw [mul_div_cancel_right₀ _ (ne_of_gt hiw), mul_div_cancel_right₀ _ (ne_of_gt hih),
    div_mul_cancel₀ _ (ne_of_gt hrw), div_mul_cancel₀ _ (ne_of_gt hrh)]
  simp [Prod.ext_iff]

/-- C7 amended witness: image 1 by 1 in widget 2 by 1 (display rect
⟨0.5, 0, 1, 1⟩); the interior point (1, 0.5) round-trips exactly. -/
theorem roundtrip_exact_witness :
    ((0:ℚ) < 1) ∧ ((0:ℚ) < 2) ∧
    (compute_video_rect 1 1 2 1).x ≤ 1 ∧
    (1:ℚ) ≤ (compute_video_rect 1 1 2 1).x + (compute_video_rect 1 1 2 1).w ∧
    (compute_video_rect 1 1 2 1).y ≤ 1/2 ∧
    (1:ℚ)/2 ≤ (compute_video_rect 1 1 2 1).y + (compute_video_rect 1 1 2 1).h ∧
    image_to_widget_coords
      (widget_to_image_coords (1, 1/2) 1 1 2 1 (some (compute_video_rect 1 1 2 1))).1
      (widget_to_image_coords (1, 1/2) 1 1 2 1 (some (compute_video_rect 1 1 2 1))).2
      1 1 2 1 (some (compute_video_rect 1 1 2 1)) = (1, 1/2) :=
  ⟨by norm_num, by norm_num,
   by norm_num [compute_video_rect], by norm_num [compute_video_rect],
   by norm_num [compute_video_rect], by norm_num [compute_video_rect],
   roundtrip_exact 1 (1/2) 1 1 2 1 (by norm_num) (by norm_num) (by norm_num) (by norm_num)
     (by norm_num [compute_video_rect]) (by norm_num [compute_video_rect])
     (by norm_num [compute_video_rect]) (by norm_num [compute_video_rect])⟩

end Thyra
